import Mathlib

/-!
Shallow embedding of the order-lifecycle endpoints of the DineFlow backend
(`src/server.js`), over an explicit database state.

Modelling conventions:
* SQL tables become Lean lists of row structures; `AUTO_INCREMENT` primary
  keys become explicit `next…Id` counters on the state.
* JS numbers carrying money are modelled as exact rationals (`ℚ`);
  `Number.prototype.toFixed(2)` on the nonnegative totals becomes half-up
  rounding to two decimals (`round2`).
* Each `connection.execute` inside the create-order transaction may throw;
  a `FailSpec` oracle says which statement (if any) throws.  Writes before
  `commit` are staged and only become the new state at the commit point,
  matching `beginTransaction`/`rollback`/`commit` semantics.
* `mysql2` connects with the `FOUND_ROWS` client flag by default, so
  `result.affectedRows` of an `UPDATE` counts the rows *matched* by the
  `WHERE` clause, not the rows whose values changed.
* `io.emit(...)` becomes an `Event` appended to the outcome's event list.
-/

set_option autoImplicit false

/-- A row of `restaurant_tables` (`database.sql`): note the `is_active` flag. -/
structure TableRow where
  id : Nat
  table_number : Nat
  is_active : Bool
  deriving Repr, DecidableEq

/-- A row of `orders` (`database.sql`). -/
structure OrderRow where
  id : Nat
  table_id : Nat
  table_number : Nat
  customer_id : Option Nat
  total_amount_inr : ℚ
  total_amount_usd : ℚ
  currency : String
  payment_method : String
  order_status : String
  payment_status : String
  deriving Repr, DecidableEq

/-- A row of `order_items` (`database.sql` plus the `item_status` column added
by `update-schema-features.js`, default `"active"`). -/
structure OrderItemRow where
  id : Nat
  order_id : Nat
  menu_item_id : Nat
  item_name : String
  quantity : Nat
  price_inr : ℚ
  price_usd : ℚ
  item_status : String
  deriving Repr, DecidableEq

/-- A row of `order_cancellations` (`update-schema-features.js`): `item_id` is
nullable, `order_id` carries a foreign key into `orders`. -/
structure CancellationRow where
  id : Nat
  order_id : Nat
  item_id : Option Nat
  reason : String
  cancelled_by : String
  deriving Repr, DecidableEq

/-- The database state the order endpoints touch. -/
structure DB where
  tables : List TableRow
  orders : List OrderRow
  orderItems : List OrderItemRow
  cancellations : List CancellationRow
  nextOrderId : Nat
  nextItemId : Nat
  nextCancellationId : Nat
  deriving Repr, DecidableEq

/-- Well-formedness of a database state: `AUTO_INCREMENT` counters are ahead
of every existing id, and item rows reference only already-allocated order
ids (the `order_items.order_id` foreign key guarantees this in MySQL). -/
def DB.wf (db : DB) : Bool :=
  db.orders.all (fun o => decide (o.id < db.nextOrderId)) &&
  db.orderItems.all
    (fun it => decide (it.id < db.nextItemId) && decide (it.order_id < db.nextOrderId))

/-- One entry of the request's `items` array: the handler reads `item.id`,
`item.name`, `item.quantity`, `item.price_inr`, `item.price_usd`. -/
structure ReqItem where
  id : Nat
  name : String
  quantity : Nat
  price_inr : ℚ
  price_usd : ℚ
  deriving Repr, DecidableEq

/-- The body of `POST /api/orders`: `table_number` is `none` when the field is
absent from the JSON body. -/
structure CreateOrderReq where
  table_number : Option Nat
  items : List ReqItem
  currency : String
  payment_method : String
  customer_id : Option Nat
  deriving Repr, DecidableEq

/-- Which `connection.execute` of the create-order handler throws, if any.
`failItemInsert = some k` makes the insert of the `k`-th item row throw
(only meaningful when `k` is an actual index of the items array). -/
structure FailSpec where
  failTableSelect : Bool
  failOrderInsert : Bool
  failItemInsert : Option Nat
  failItemsSelect : Bool
  failCommit : Bool
  failPostSelect : Bool
  deriving Repr, DecidableEq

/-- The oracle under which every statement succeeds. -/
def noFail : FailSpec :=
  ⟨false, false, none, false, false, false⟩

/-- Events pushed through the socket layer (`io.emit`). -/
inductive Event where
  | newOrder (order : OrderRow) (items : List OrderItemRow)
  | orderStatusUpdated (order : OrderRow)
  deriving Repr, DecidableEq

/-- The HTTP-level outcome of `POST /api/orders`: `ok` is the 200 body
(`data` = order row spread together with its `items`), `invalidInput` the
400 response, `notFound` the 404, `storageFailure` the 500. -/
inductive CreateOrderResult where
  | ok (order : OrderRow) (items : List OrderItemRow)
  | invalidInput
  | notFound
  | storageFailure
  deriving Repr, DecidableEq

/-- True exactly on the success constructor. -/
def CreateOrderResult.isOk : CreateOrderResult → Bool
  | .ok _ _ => true
  | _ => false

structure CreateOutcome where
  result : CreateOrderResult
  db : DB
  events : List Event
  deriving Repr, DecidableEq

/-- JS truthiness of the `table_number` field: `!table_number` holds when the
field is absent (`undefined`) or the number `0`. -/
def tableNumberFalsy : Option Nat → Bool
  | none => true
  | some n => n == 0

/-- The row returned by
`SELECT id FROM restaurant_tables WHERE table_number = ?` — note that the
query does not filter on `is_active`. -/
def findTable (tables : List TableRow) (n : Nat) : Option TableRow :=
  tables.find? (fun t => t.table_number == n)

/-- Half-up rounding to two decimal places: the model of `toFixed(2)` on the
nonnegative order totals. -/
def round2 (q : ℚ) : ℚ :=
  (((q * 100 + 1 / 2).floor : ℤ) : ℚ) / 100

/-- The running total `total_inr += parseFloat(item.price_inr) * item.quantity`. -/
def sumInr (items : List ReqItem) : ℚ :=
  (items.map (fun it => it.price_inr * (it.quantity : ℚ))).sum

/-- The running total `total_usd += parseFloat(item.price_usd) * item.quantity`. -/
def sumUsd (items : List ReqItem) : ℚ :=
  (items.map (fun it => it.price_usd * (it.quantity : ℚ))).sum

/-- The order row inserted by the handler: status fixed to `"pending"`,
payment status `"pending"` for cash and `"paid"` otherwise. -/
def mkOrderRow (oid : Nat) (t : TableRow) (n : Nat) (req : CreateOrderReq) : OrderRow :=
  { id := oid
    table_id := t.id
    table_number := n
    customer_id := req.customer_id
    total_amount_inr := round2 (sumInr req.items)
    total_amount_usd := round2 (sumUsd req.items)
    currency := req.currency
    payment_method := req.payment_method
    order_status := "pending"
    payment_status := if req.payment_method == "cash" then "pending" else "paid" }

/-- The item rows inserted by the per-item loop, with consecutive fresh ids;
`item_status` takes its column default `"active"`. -/
def mkItemRows (oid : Nat) (startId : Nat) : List ReqItem → List OrderItemRow
  | [] => []
  | it :: rest =>
    { id := startId
      order_id := oid
      menu_item_id := it.id
      item_name := it.name
      quantity := it.quantity
      price_inr := it.price_inr
      price_usd := it.price_usd
      item_status := "active" } :: mkItemRows oid (startId + 1) rest

/-- Whether the item-insert loop throws under oracle `f`: only an index that
is actually reached can throw. -/
def itemInsertFails (f : FailSpec) (items : List ReqItem) : Bool :=
  match f.failItemInsert with
  | some k => decide (k < items.length)
  | none => false

/-- The state produced by a committed create-order transaction: the staged
order row and item rows appended, the `AUTO_INCREMENT` counters advanced. -/
def commitDB (db : DB) (t : TableRow) (n : Nat) (req : CreateOrderReq) : DB :=
  { db with
    orders := db.orders ++ [mkOrderRow db.nextOrderId t n req]
    orderItems := db.orderItems ++ mkItemRows db.nextOrderId db.nextItemId req.items
    nextOrderId := db.nextOrderId + 1
    nextItemId := db.nextItemId + req.items.length }

/-- The rows the in-transaction `SELECT * FROM order_items WHERE order_id = ?`
returns: the staged item table filtered on the fresh order id. -/
def selectedItems (db : DB) (req : CreateOrderReq) : List OrderItemRow :=
  (db.orderItems ++ mkItemRows db.nextOrderId db.nextItemId req.items).filter
    (fun r => r.order_id == db.nextOrderId)

/-- The handler of `POST /api/orders` (`src/server.js`, `app.post('/api/orders')`).
Statements before `commit` act on staged rows that only become the state at
the commit point; every error path before commit returns the original state
(rollback).  The read-back `SELECT * FROM orders WHERE id = ?` and the
`io.emit` happen *after* `commit`, so a throw there surfaces as a 500 while
the committed rows remain (`commitDB`).  Connection acquisition and
`beginTransaction` are assumed to succeed. -/
def createOrder (db : DB) (req : CreateOrderReq) (f : FailSpec) : CreateOutcome :=
  -- if (!table_number || !items || items.length === 0) → 400, rollback
  if tableNumberFalsy req.table_number || req.items.isEmpty then
    ⟨.invalidInput, db, []⟩
  else
    match req.table_number with
    | none => ⟨.invalidInput, db, []⟩
    | some n =>
      -- SELECT id FROM restaurant_tables WHERE table_number = ?
      if f.failTableSelect then ⟨.storageFailure, db, []⟩
      else
        match findTable db.tables n with
        | none => ⟨.notFound, db, []⟩
        | some t =>
          -- INSERT INTO orders (...)
          if f.failOrderInsert then ⟨.storageFailure, db, []⟩
          -- the per-item INSERT INTO order_items loop
          else if itemInsertFails f req.items then ⟨.storageFailure, db, []⟩
          -- SELECT * FROM order_items WHERE order_id = ? (inside the txn)
          else if f.failItemsSelect then ⟨.storageFailure, db, []⟩
          -- COMMIT
          else if f.failCommit then ⟨.storageFailure, db, []⟩
          -- SELECT * FROM orders WHERE id = ? — after the commit, so the
          -- catch-block rollback can no longer undo the committed rows
          else if f.failPostSelect then ⟨.storageFailure, commitDB db t n req, []⟩
          else
            match (commitDB db t n req).orders.find? (fun o => o.id == db.nextOrderId) with
            | some o =>
              ⟨.ok o (selectedItems db req), commitDB db t n req,
                [.newOrder o (selectedItems db req)]⟩
            | none => ⟨.storageFailure, commitDB db t n req, []⟩

/-- The outcome of `PUT /api/orders/:id/status`. -/
inductive UpdateStatusResult where
  | ok (order : OrderRow)
  | notFound
  deriving Repr, DecidableEq

structure UpdateOutcome where
  result : UpdateStatusResult
  db : DB
  events : List Event
  deriving Repr, DecidableEq

/-- The handler of `PUT /api/orders/:id/status`
(`app.put('/api/orders/:id/status')`): runs
`UPDATE orders SET order_status = ? WHERE id = ?`, answers 404 when
`affectedRows === 0`, otherwise re-reads the order and emits
`order-status-updated`.  Under mysql2's default `FOUND_ROWS` client flag,
`affectedRows` counts the rows matched by the `WHERE` clause, so it is zero
exactly when no order has the given id (even a same-value write matches). -/
def updateOrderStatus (db : DB) (orderId : Nat) (newStatus : String) : UpdateOutcome :=
  let affectedRows := (db.orders.filter (fun o => o.id == orderId)).length
  let db2 : DB :=
    { db with
      orders := db.orders.map
        (fun o => if o.id == orderId then { o with order_status := newStatus } else o) }
  if affectedRows == 0 then ⟨.notFound, db2, []⟩
  else
    match db2.orders.find? (fun o => o.id == orderId) with
    | some o => ⟨.ok o, db2, [.orderStatusUpdated o]⟩
    | none => ⟨.notFound, db2, []⟩

/-- The outcome of the two cancellation endpoints: both answer
`{ success: true }` unconditionally unless a statement throws (500). -/
inductive CancelResult where
  | ok
  | storageFailure
  deriving Repr, DecidableEq

structure CancelOutcome where
  result : CancelResult
  db : DB
  deriving Repr, DecidableEq

/-- The handler of `POST /api/orders/:id/cancel`
(`app.post('/api/orders/:id/cancel')`): sets
`order_status = "cancelled"` on the matching order (without checking
`affectedRows`), then appends an `order_cancellations` row.  The audit
insert throws a foreign-key violation when no order with this id exists
(`order_cancellations.order_id REFERENCES orders(id)`); the two statements
run on the pool with no transaction, so the status write is kept even
then. -/
def cancelOrder (db : DB) (orderId : Nat) (reason cancelled_by : String) : CancelOutcome :=
  let db1 : DB :=
    { db with
      orders := db.orders.map
        (fun o => if o.id == orderId then { o with order_status := "cancelled" } else o) }
  if db1.orders.any (fun o => o.id == orderId) then
    ⟨.ok,
      { db1 with
        cancellations := db1.cancellations ++
          [{ id := db1.nextCancellationId
             order_id := orderId
             item_id := none
             reason := reason
             cancelled_by := cancelled_by }]
        nextCancellationId := db1.nextCancellationId + 1 }⟩
  else ⟨.storageFailure, db1⟩

/-- The handler of `POST /api/orders/:id/items/:itemId/cancel`
(`app.post('/api/orders/:id/items/:itemId/cancel')`): runs
`UPDATE order_items SET item_status = "cancelled" WHERE id = ? AND order_id = ?`
without inspecting `affectedRows`, then appends an `order_cancellations`
row referencing both ids and answers success.  As in `cancelOrder`, the
audit insert throws only on the `order_id` foreign key. -/
def cancelOrderItem (db : DB) (orderId itemId : Nat) (reason cancelled_by : String) :
    CancelOutcome :=
  let db1 : DB :=
    { db with
      orderItems := db.orderItems.map
        (fun it =>
          if it.id == itemId && it.order_id == orderId then
            { it with item_status := "cancelled" }
          else it) }
  if db1.orders.any (fun o => o.id == orderId) then
    ⟨.ok,
      { db1 with
        cancellations := db1.cancellations ++
          [{ id := db1.nextCancellationId
             order_id := orderId
             item_id := some itemId
             reason := reason
             cancelled_by := cancelled_by }]
        nextCancellationId := db1.nextCancellationId + 1 }⟩
  else ⟨.storageFailure, db1⟩

/-! Concrete states and requests used as evaluation witnesses, built around the
spec's scenario: table 3 exists, one Margherita Pizza item, quantity 2. -/

def sampleTable : TableRow :=
  { id := 1, table_number := 3, is_active := true }

def sampleDB : DB :=
  { tables := [sampleTable], orders := [], orderItems := [], cancellations := [],
    nextOrderId := 1, nextItemId := 1, nextCancellationId := 1 }

def sampleItem : ReqItem :=
  { id := 1, name := "Margherita Pizza", quantity := 2,
    price_inr := 299, price_usd := 399 / 100 }

def sampleReq : CreateOrderReq :=
  { table_number := some 3, items := [sampleItem],
    currency := "INR", payment_method := "cash", customer_id := none }

def sampleOrderRow : OrderRow := mkOrderRow 1 sampleTable 3 sampleReq

def sampleItemRows : List OrderItemRow := mkItemRows 1 1 sampleReq.items

/-- The oracle in which only the post-commit `SELECT * FROM orders` throws. -/
def postReadFail : FailSpec := { noFail with failPostSelect := true }

def badTableReq : CreateOrderReq := { sampleReq with table_number := some 999 }

def emptyItemsReq : CreateOrderReq := { sampleReq with items := [] }

def zeroQtyItem : ReqItem := { sampleItem with quantity := 0 }

def zeroQtyReq : CreateOrderReq := { sampleReq with items := [zeroQtyItem] }

def inactiveTable : TableRow :=
  { id := 1, table_number := 7, is_active := false }

def inactiveDB : DB :=
  { sampleDB with tables := [inactiveTable] }

def inactiveReq : CreateOrderReq := { sampleReq with table_number := some 7 }

def pendingOrder : OrderRow :=
  { id := 1, table_id := 1, table_number := 3, customer_id := none,
    total_amount_inr := 598, total_amount_usd := 399 / 50,
    currency := "INR", payment_method := "cash",
    order_status := "pending", payment_status := "pending" }

def statusDB : DB :=
  { sampleDB with orders := [pendingOrder], nextOrderId := 2 }

def secondOrder : OrderRow := { pendingOrder with id := 2 }

def itemTen : OrderItemRow :=
  { id := 10, order_id := 1, menu_item_id := 1, item_name := "Margherita Pizza",
    quantity := 2, price_inr := 299, price_usd := 399 / 100, item_status := "active" }

/-- Two orders; item 10 belongs to order 1, not order 2. -/
def mismatchDB : DB :=
  { sampleDB with
    orders := [pendingOrder, secondOrder]
    orderItems := [itemTen]
    nextOrderId := 3
    nextItemId := 11 }

/-- One order owning item 10. -/
def itemDB : DB :=
  { sampleDB with
    orders := [pendingOrder]
    orderItems := [itemTen]
    nextOrderId := 2
    nextItemId := 11 }

/-! Helper lemmas. -/

theorem mkItemRows_length (oid : Nat) (items : List ReqItem) :
    ∀ s, (mkItemRows oid s items).length = items.length := by
  induction items with
  | nil => intro s; rfl
  | cons it rest ih => intro s; simp [mkItemRows, ih (s + 1)]

theorem mkItemRows_order_id (oid : Nat) (items : List ReqItem) :
    ∀ s r, r ∈ mkItemRows oid s items → r.order_id = oid := by
  induction items with
  | nil => intro s r hr; simp [mkItemRows] at hr
  | cons it rest ih =>
    intro s r hr
    rcases (List.mem_cons).1 hr with h | h
    · subst h; rfl
    · exact ih (s + 1) r h

theorem find?_fresh_append {α : Type} (p : α → Bool) (l : List α) (r : α)
    (hl : ∀ o ∈ l, p o = false) (hr : p r = true) :
    (l ++ [r]).find? p = some r := by
  induction l with
  | nil => simp [List.find?, hr]
  | cons a as ih =>
    have ha : p a = false := hl a (List.mem_cons_self a as)
    rw [List.cons_append, List.find?_cons_of_neg _ (by simp [ha])]
    exact ih (fun o ho => hl o (List.mem_cons_of_mem a ho))

theorem filter_fresh_append {α : Type} (p : α → Bool) (l rs : List α)
    (hl : ∀ x ∈ l, p x = false) (hrs : ∀ x ∈ rs, p x = true) :
    (l ++ rs).filter p = rs := by
  rw [List.filter_append]
  have h1 : l.filter p = [] := by
    rw [List.filter_eq_nil_iff]
    intro a ha
    simp [hl a ha]
  have h2 : rs.filter p = rs := List.filter_eq_self.mpr hrs
  rw [h1, h2, List.nil_append]

theorem wf_order_ids (db : DB) (hwf : db.wf = true) :
    ∀ o ∈ db.orders, o.id < db.nextOrderId := by
  intro o ho
  simp only [DB.wf, Bool.and_eq_true, List.all_eq_true, decide_eq_true_eq] at hwf
  exact hwf.1 o ho

theorem wf_item_order_ids (db : DB) (hwf : db.wf = true) :
    ∀ it ∈ db.orderItems, it.order_id < db.nextOrderId := by
  intro it hit
  simp only [DB.wf, Bool.and_eq_true, List.all_eq_true, decide_eq_true_eq] at hwf
  exact (hwf.2 it hit).2

theorem wf_find_commit (db : DB) (t : TableRow) (n : Nat) (req : CreateOrderReq)
    (hwf : db.wf = true) :
    (commitDB db t n req).orders.find? (fun x => x.id == db.nextOrderId) =
      some (mkOrderRow db.nextOrderId t n req) := by
  apply find?_fresh_append
  · intro o ho
    have := wf_order_ids db hwf o ho
    simp [Nat.ne_of_lt this]
  · simp [mkOrderRow]

theorem wf_selectedItems (db : DB) (req : CreateOrderReq) (hwf : db.wf = true) :
    selectedItems db req = mkItemRows db.nextOrderId db.nextItemId req.items := by
  apply filter_fresh_append
  · intro x hx
    have := wf_item_order_ids db hwf x hx
    simp [Nat.ne_of_lt this]
  · intro x hx
    simp [mkItemRows_order_id db.nextOrderId req.items db.nextItemId x hx]


/-- Case analysis of the create-order handler: either it is an error that
leaves the state untouched and emits nothing, or the transaction commits,
in which case the state is `commitDB` and the result depends only on
whether the post-commit read-back throws. -/
theorem createOrder_cases (db : DB) (req : CreateOrderReq) (f : FailSpec) :
    ((createOrder db req f).result.isOk = false ∧ (createOrder db req f).db = db ∧
      (createOrder db req f).events = [])
  ∨ ∃ n t o,
      req.table_number = some n ∧ findTable db.tables n = some t ∧
      (commitDB db t n req).orders.find? (fun x => x.id == db.nextOrderId) = some o ∧
      (createOrder db req f).db = commitDB db t n req ∧
      ((f.failPostSelect = true ∧ (createOrder db req f).result = .storageFailure ∧
         (createOrder db req f).events = []) ∨
       (f.failPostSelect = false ∧
         (createOrder db req f).result = .ok o (selectedItems db req) ∧
         (createOrder db req f).events = [.newOrder o (selectedItems db req)])) := by
  by_cases h1 : (tableNumberFalsy req.table_number || req.items.isEmpty) = true
  · left
    simp [createOrder, h1, CreateOrderResult.isOk]
  · cases hn : req.table_number with
    | none => exact absurd (by simp [tableNumberFalsy, hn]) h1
    | some n =>
      rw [hn] at h1
      simp only [Bool.or_eq_true, not_or, Bool.not_eq_true] at h1
      by_cases h2 : f.failTableSelect = true
      · left
        simp [createOrder, h1.1, h1.2, hn, h2, CreateOrderResult.isOk]
      · cases ht : findTable db.tables n with
        | none =>
          left
          simp [createOrder, h1.1, h1.2, hn, h2, ht, CreateOrderResult.isOk]
        | some t =>
          by_cases h3 : f.failOrderInsert = true
          · left
            simp [createOrder, h1.1, h1.2, hn, h2, ht, h3, CreateOrderResult.isOk]
          · by_cases h4 : itemInsertFails f req.items = true
            · left
              simp [createOrder, h1.1, h1.2, hn, h2, ht, h3, h4, CreateOrderResult.isOk]
            · by_cases h5 : f.failItemsSelect = true
              · left
                simp [createOrder, h1.1, h1.2, hn, h2, ht, h3, h4, h5,
                  CreateOrderResult.isOk]
              · by_cases h6 : f.failCommit = true
                · left
                  simp [createOrder, h1.1, h1.2, hn, h2, ht, h3, h4, h5, h6,
                    CreateOrderResult.isOk]
                · obtain ⟨o, ho⟩ :
                      ∃ o, (commitDB db t n req).orders.find?
                        (fun x => x.id == db.nextOrderId) = some o := by
                    rcases hfind : (commitDB db t n req).orders.find?
                        (fun x => x.id == db.nextOrderId) with _ | o
                    · exfalso
                      have hmem : mkOrderRow db.nextOrderId t n req ∈
                          (commitDB db t n req).orders := by
                        simp [commitDB]
                      have := List.find?_eq_none.1 hfind _ hmem
                      simp [mkOrderRow] at this
                    · exact ⟨o, hfind⟩
                  right
                  refine ⟨n, t, o, rfl, ht, ho, ?_, ?_⟩
                  · by_cases h7 : f.failPostSelect = true
                    · simp [createOrder, h1.1, h1.2, hn, h2, ht, h3, h4, h5, h6, h7]
                    · simp only [createOrder, h1.1, h1.2, hn, h2, ht, h3, h4, h5, h6, h7]
                      simp only [Bool.or_self, Bool.false_eq_true, if_false, ho]
                  · by_cases h7 : f.failPostSelect = true
                    · left
                      refine ⟨h7, ?_, ?_⟩ <;>
                        simp [createOrder, h1.1, h1.2, hn, h2, ht, h3, h4, h5, h6, h7]
                    · right
                      refine ⟨by simpa using h7, ?_, ?_⟩ <;>
                      · simp only [createOrder, h1.1, h1.2, hn, h2, ht, h3, h4, h5, h6, h7]
                        simp only [Bool.or_self, Bool.false_eq_true, if_false, ho]

/-- The post-commit read-back always finds a row: the staged order row just
appended matches its own id. -/
theorem commit_find_some (db : DB) (t : TableRow) (n : Nat) (req : CreateOrderReq) :
    ∃ o, (commitDB db t n req).orders.find? (fun x => x.id == db.nextOrderId) = some o := by
  rcases hfind : (commitDB db t n req).orders.find?
      (fun x => x.id == db.nextOrderId) with _ | o
  · exfalso
    have hmem : mkOrderRow db.nextOrderId t n req ∈ (commitDB db t n req).orders := by
      simp [commitDB]
    have := List.find?_eq_none.1 hfind _ hmem
    simp [mkOrderRow] at this
  · exact ⟨o, hfind⟩

/-- Input validation rejects the request exactly on the JS-falsy conditions,
with the state untouched. -/
theorem createOrder_invalid (db : DB) (req : CreateOrderReq) (f : FailSpec)
    (h : (tableNumberFalsy req.table_number || req.items.isEmpty) = true) :
    createOrder db req f = ⟨.invalidInput, db, []⟩ := by
  simp [createOrder, h]

/-- When validation passes and the table select returns no row, the handler
answers 404 with the state untouched. -/
theorem createOrder_notFound (db : DB) (req : CreateOrderReq) (f : FailSpec) (n : Nat)
    (h1 : tableNumberFalsy req.table_number = false) (h2 : req.items.isEmpty = false)
    (hn : req.table_number = some n) (hf : f.failTableSelect = false)
    (ht : findTable db.tables n = none) :
    createOrder db req f = ⟨.notFound, db, []⟩ := by
  rw [hn] at h1
  simp [createOrder, h1, h2, hn, hf, ht]

/-- With no injected failures and a matching table row, the handler commits
and answers 200. -/
theorem createOrder_noFail_ok (db : DB) (req : CreateOrderReq) (n : Nat) (t : TableRow)
    (h1 : tableNumberFalsy req.table_number = false) (h2 : req.items.isEmpty = false)
    (hn : req.table_number = some n) (ht : findTable db.tables n = some t) :
    ∃ o, (commitDB db t n req).orders.find? (fun x => x.id == db.nextOrderId) = some o ∧
      createOrder db req noFail =
        ⟨.ok o (selectedItems db req), commitDB db t n req,
          [.newOrder o (selectedItems db req)]⟩ := by
  obtain ⟨o, ho⟩ := commit_find_some db t n req
  refine ⟨o, ho, ?_⟩
  rw [hn] at h1
  simp [createOrder, h1, h2, hn, ht, noFail, itemInsertFails, ho]

/-- Evaluation of the sample request with no injected failures: the handler
commits and returns the sample order row with its single item row. -/
theorem sample_run :
    createOrder sampleDB sampleReq noFail =
      ⟨.ok sampleOrderRow sampleItemRows, commitDB sampleDB sampleTable 3 sampleReq,
        [.newOrder sampleOrderRow sampleItemRows]⟩ := by
  obtain ⟨o, ho, hrun⟩ :=
    createOrder_noFail_ok sampleDB sampleReq 3 sampleTable rfl rfl rfl rfl
  have hw := wf_find_commit sampleDB sampleTable 3 sampleReq rfl
  rw [ho] at hw
  have hfo : o = sampleOrderRow := Option.some.inj hw
  have hsel : selectedItems sampleDB sampleReq = sampleItemRows :=
    wf_selectedItems sampleDB sampleReq rfl
  rw [hrun, hfo, hsel]

/-- Under the oracle that only fails the post-commit read-back, the commit
still happens and the caller gets a 500 with no event. -/
theorem createOrder_postfail_run (db : DB) (req : CreateOrderReq) (n : Nat) (t : TableRow)
    (h1 : tableNumberFalsy req.table_number = false) (h2 : req.items.isEmpty = false)
    (hn : req.table_number = some n) (ht : findTable db.tables n = some t) :
    createOrder db req postReadFail = ⟨.storageFailure, commitDB db t n req, []⟩ := by
  rw [hn] at h1
  simp [createOrder, h1, h2, hn, ht, postReadFail, noFail, itemInsertFails]

/-- Evaluation of the sample request when only the post-commit read throws. -/
theorem sample_run_postfail :
    createOrder sampleDB sampleReq postReadFail =
      ⟨.storageFailure, commitDB sampleDB sampleTable 3 sampleReq, []⟩ :=
  createOrder_postfail_run sampleDB sampleReq 3 sampleTable rfl rfl rfl rfl

/-- C1 (counterexample): the claim says any failure after the transaction
begins rolls everything back with no order or item rows persisting.  When
only the post-commit `SELECT * FROM orders WHERE id = ?` throws, the caller
sees a `StorageFailure`, yet the committed order row and item row remain in
the state. -/
theorem c1_counterexample :
    (createOrder sampleDB sampleReq postReadFail).result = .storageFailure ∧
    sampleDB.orders = [] ∧ sampleDB.orderItems = [] ∧
    (createOrder sampleDB sampleReq postReadFail).db.orders.length = 1 ∧
    (createOrder sampleDB sampleReq postReadFail).db.orderItems.length = 1 := by
  rw [sample_run_postfail]
  refine ⟨rfl, rfl, rfl, ?_, ?_⟩ <;> simp [commitDB, sampleDB, mkItemRows]

/-- C1 (amended): for any failure up to and including the commit, the whole
transaction is rolled back and the state is unchanged; when the operation
succeeds, the order row and all the submitted item rows are visible
together.  Only a throw in the post-commit read-back escapes this:
excluding it (`failPostSelect = false`), every non-ok outcome leaves the
state exactly as it was. -/
theorem c1_createOrder_atomic (db : DB) (req : CreateOrderReq) (f : FailSpec)
    (hwf : db.wf = true) (hf : f.failPostSelect = false) :
    ((createOrder db req f).result.isOk = false → (createOrder db req f).db = db) ∧
    (∀ o its, (createOrder db req f).result = .ok o its →
      (createOrder db req f).db.orders = db.orders ++ [o] ∧
      (createOrder db req f).db.orderItems = db.orderItems ++ its ∧
      its.length = req.items.length) := by
  rcases createOrder_cases db req f with ⟨hok, hdb, _⟩ |
    ⟨n, t, o, hn, ht, hfind, hdb, hrest⟩
  · refine ⟨fun _ => hdb, fun o its h => ?_⟩
    rw [h] at hok
    simp [CreateOrderResult.isOk] at hok
  · rcases hrest with ⟨h7, _, _⟩ | ⟨_, hres, _⟩
    · rw [hf] at h7
      cases h7
    · constructor
      · intro hok
        rw [hres] at hok
        simp [CreateOrderResult.isOk] at hok
      · intro o2 its h
        have hinj := hres.symm.trans h
        injection hinj with e1 e2
        subst e1
        have hfo : o = mkOrderRow db.nextOrderId t n req := by
          have hw := wf_find_commit db t n req hwf
          rw [hfind] at hw
          exact Option.some.inj hw
        have hsel := wf_selectedItems db req hwf
        refine ⟨?_, ?_, ?_⟩
        · rw [hdb]
          simp [commitDB, hfo]
        · rw [hdb, ← e2]
          simp [commitDB, hsel]
        · rw [← e2, hsel, mkItemRows_length]

/-- C1 (witness): on the concrete sample request with no injected failures,
the committed state is the original one with exactly the new order row and
its item row appended. -/
theorem c1_witness :
    (createOrder sampleDB sampleReq noFail).db.orders =
      sampleDB.orders ++ [sampleOrderRow] ∧
    (createOrder sampleDB sampleReq noFail).db.orderItems =
      sampleDB.orderItems ++ sampleItemRows ∧
    sampleItemRows.length = sampleReq.items.length :=
  (c1_createOrder_atomic sampleDB sampleReq noFail rfl rfl).2
    sampleOrderRow sampleItemRows (by rw [sample_run])

/-- C2: whenever create-order succeeds, the returned (and persisted) order
carries `total_amount_inr = round2 (Σ price_inr * quantity)` and
`total_amount_usd = round2 (Σ price_usd * quantity)` over the submitted
items, and that order row is in the resulting state. -/
theorem c2_totals (db : DB) (req : CreateOrderReq) (f : FailSpec)
    (o : OrderRow) (its : List OrderItemRow) (hwf : db.wf = true)
    (h : (createOrder db req f).result = .ok o its) :
    o.total_amount_inr = round2 (sumInr req.items) ∧
    o.total_amount_usd = round2 (sumUsd req.items) ∧
    o ∈ (createOrder db req f).db.orders := by
  rcases createOrder_cases db req f with ⟨hok, _, _⟩ |
    ⟨n, t, o1, hn, ht, hfind, hdb, hrest⟩
  · rw [h] at hok
    simp [CreateOrderResult.isOk] at hok
  · rcases hrest with ⟨_, hres, _⟩ | ⟨_, hres, _⟩
    · rw [hres] at h
      cases h
    · have hpair := hres.symm.trans h
      obtain ⟨e1, e2⟩ : o1 = o ∧ selectedItems db req = its := by
        injection hpair with a b
        exact ⟨a, b⟩
      have hfo : o1 = mkOrderRow db.nextOrderId t n req := by
        have hw := wf_find_commit db t n req hwf
        rw [hfind] at hw
        exact Option.some.inj hw
      rw [← e1, hfo]
      refine ⟨rfl, rfl, ?_⟩
      rw [hdb]
      simp [commitDB]

/-- C2 (witness): the sample order (2 × ₹299 / 2 × $3.99) totals ₹598.00 and
$7.98. -/
theorem c2_witness :
    sampleDB.wf = true ∧
    sampleOrderRow.total_amount_inr = round2 (sumInr sampleReq.items) ∧
    sampleOrderRow.total_amount_usd = round2 (sumUsd sampleReq.items) ∧
    sampleOrderRow ∈ (createOrder sampleDB sampleReq noFail).db.orders :=
  ⟨rfl, c2_totals sampleDB sampleReq noFail sampleOrderRow sampleItemRows
    rfl (by rw [sample_run])⟩

/-- C3 (counterexample): the claim says a table that exists but is inactive
makes create-order fail with `NotFound`.  The lookup
`SELECT id FROM restaurant_tables WHERE table_number = ?` never filters on
`is_active`, so an order for the inactive table 7 succeeds and persists an
order row. -/
theorem c3_counterexample :
    inactiveTable ∈ inactiveDB.tables ∧ inactiveTable.is_active = false ∧
    inactiveTable.table_number = 7 ∧ inactiveReq.table_number = some 7 ∧
    (createOrder inactiveDB inactiveReq noFail).result.isOk = true ∧
    (createOrder inactiveDB inactiveReq noFail).db.orders.length = 1 := by
  obtain ⟨o, ho, hrun⟩ :=
    createOrder_noFail_ok inactiveDB inactiveReq 7 inactiveTable rfl rfl rfl rfl
  rw [hrun]
  exact ⟨by simp [inactiveDB, sampleDB], rfl, rfl, rfl, rfl,
    by simp [commitDB, inactiveDB, sampleDB]⟩

/-- C3 (amended): with no injected storage failures, create-order answers
`NotFound` exactly when no `restaurant_tables` row (active or not) carries
the requested table number, and in that case the state and event stream
are untouched.  The `is_active` flag plays no role. -/
theorem c3_notFound_iff (db : DB) (req : CreateOrderReq) (n : Nat)
    (hn : req.table_number = some n)
    (h1 : tableNumberFalsy req.table_number = false)
    (h2 : req.items.isEmpty = false) :
    ((createOrder db req noFail).result = .notFound ↔
      ∀ t ∈ db.tables, t.table_number ≠ n) ∧
    ((createOrder db req noFail).result = .notFound →
      (createOrder db req noFail).db = db ∧ (createOrder db req noFail).events = []) := by
  cases ht : findTable db.tables n with
  | none =>
    have hrun := createOrder_notFound db req noFail n h1 h2 hn rfl ht
    have hnone : ∀ t ∈ db.tables, t.table_number ≠ n := by
      intro t htm
      have ht' : db.tables.find? (fun t => t.table_number == n) = none := ht
      have := List.find?_eq_none.1 ht' t htm
      simpa using this
    rw [hrun]
    exact ⟨⟨fun _ => hnone, fun _ => rfl⟩, fun _ => ⟨rfl, rfl⟩⟩
  | some t =>
    obtain ⟨o, ho, hrun⟩ := createOrder_noFail_ok db req n t h1 h2 hn ht
    rw [hrun]
    constructor
    · constructor
      · intro h
        cases h
      · intro hall
        exfalso
        have ht' : db.tables.find? (fun t => t.table_number == n) = some t := ht
        have hmem := List.mem_of_find?_eq_some ht'
        have hpt := List.find?_some ht'
        exact hall t hmem (by simpa using hpt)
    · intro h
      cases h

/-- C3 (witness): table number 999 matches no row of the sample state, so the
request is rejected with `NotFound` and nothing changes. -/
theorem c3_witness :
    ((createOrder sampleDB badTableReq noFail).result = .notFound ↔
      ∀ t ∈ sampleDB.tables, t.table_number ≠ 999) ∧
    ((createOrder sampleDB badTableReq noFail).result = .notFound →
      (createOrder sampleDB badTableReq noFail).db = sampleDB ∧
      (createOrder sampleDB badTableReq noFail).events = []) :=
  c3_notFound_iff sampleDB badTableReq 999 rfl rfl rfl

/-- C4 (counterexample): the claim says an item without a positive quantity
makes create-order fail with `InvalidInput`.  The handler validates only
`!table_number || !items || items.length === 0`, so a request whose single
item has quantity 0 is accepted and an order row is persisted. -/
theorem c4_counterexample :
    zeroQtyItem.quantity = 0 ∧
    (createOrder sampleDB zeroQtyReq noFail).result.isOk = true ∧
    (createOrder sampleDB zeroQtyReq noFail).db.orders.length = 1 := by
  obtain ⟨o, ho, hrun⟩ :=
    createOrder_noFail_ok sampleDB zeroQtyReq 3 sampleTable rfl rfl rfl rfl
  rw [hrun]
  exact ⟨rfl, rfl, by simp [commitDB, sampleDB]⟩

/-- C4 (amended): with no injected storage failures, create-order answers
`InvalidInput` exactly when the table number is JS-falsy (absent or zero)
or the items collection is empty, and then no order row is persisted.
Per-item quantities and prices are never validated. -/
theorem c4_invalidInput_iff (db : DB) (req : CreateOrderReq) :
    ((createOrder db req noFail).result = .invalidInput ↔
      (tableNumberFalsy req.table_number || req.items.isEmpty) = true) ∧
    ((createOrder db req noFail).result = .invalidInput →
      (createOrder db req noFail).db = db) := by
  by_cases hc : (tableNumberFalsy req.table_number || req.items.isEmpty) = true
  · have hrun := createOrder_invalid db req noFail hc
    rw [hrun]
    exact ⟨⟨fun _ => hc, fun _ => rfl⟩, fun _ => rfl⟩
  · have hc' := hc
    simp only [Bool.or_eq_true, not_or, Bool.not_eq_true] at hc'
    cases hn : req.table_number with
    | none =>
      exfalso
      rw [hn] at hc'
      simp [tableNumberFalsy] at hc'
    | some n =>
      cases ht : findTable db.tables n with
      | none =>
        have hrun := createOrder_notFound db req noFail n hc'.1 hc'.2 hn rfl ht
        rw [hrun]
        exact ⟨⟨fun h => (nomatch h), fun h => absurd h (hn ▸ hc)⟩, fun h => (nomatch h)⟩
      | some t =>
        obtain ⟨o, ho, hrun⟩ := createOrder_noFail_ok db req n t hc'.1 hc'.2 hn ht
        rw [hrun]
        exact ⟨⟨fun h => (nomatch h), fun h => absurd h (hn ▸ hc)⟩, fun h => (nomatch h)⟩

/-- C4 (witness): an empty items collection is rejected with `InvalidInput`
and the state is unchanged. -/
theorem c4_witness :
    (createOrder sampleDB emptyItemsReq noFail).result = .invalidInput ∧
    (createOrder sampleDB emptyItemsReq noFail).db = sampleDB := by
  have h := c4_invalidInput_iff sampleDB emptyItemsReq
  have hres := h.1.mpr rfl
  exact ⟨hres, h.2 hres⟩


/-- Searching the status-updated order list finds a row with the new status
whenever some order carries the id. -/
theorem find?_map_updated (l : List OrderRow) (oid : Nat) (s : String)
    (hmem : ∃ o ∈ l, o.id = oid) :
    ∃ u, (l.map (fun o => if o.id == oid then { o with order_status := s } else o)).find?
        (fun o => o.id == oid) = some u ∧ u.id = oid ∧ u.order_status = s ∧
      u ∈ l.map (fun o => if o.id == oid then { o with order_status := s } else o) := by
  induction l with
  | nil =>
    rcases hmem with ⟨o, ho, _⟩
    cases ho
  | cons a as ih =>
    by_cases ha : a.id = oid
    · refine ⟨{ a with order_status := s }, ?_, ha, rfl, ?_⟩
      · simp only [List.map_cons]
        rw [List.find?_cons_of_pos _ (by simp [ha])]
        simp [ha]
      · simp [ha]
    · rcases hmem with ⟨o, ho, hoid⟩
      rcases List.mem_cons.1 ho with rfl | hin
      · exact absurd hoid ha
      · obtain ⟨u, hu, h1, h2, h3⟩ := ih ⟨o, hin, hoid⟩
        refine ⟨u, ?_, h1, h2, ?_⟩
        · simp only [List.map_cons]
          rw [List.find?_cons_of_neg _ (by simp [ha])]
          exact hu
        · simp only [List.map_cons]
          exact List.mem_cons_of_mem _ h3

/-- When no order matches the id, the status update matches zero rows
(`affectedRows = 0`) and the handler answers 404 with the state intact. -/
theorem updateOrderStatus_notFound (db : DB) (oid : Nat) (s : String)
    (hno : ∀ o ∈ db.orders, o.id ≠ oid) :
    updateOrderStatus db oid s = ⟨.notFound, db, []⟩ := by
  have hmap : db.orders.map
      (fun o => if o.id == oid then { o with order_status := s } else o) = db.orders := by
    conv_rhs => rw [← List.map_id db.orders]
    apply List.map_congr_left
    intro a ha
    simp [hno a ha]
  have hflt : db.orders.filter (fun o => o.id == oid) = [] := by
    rw [List.filter_eq_nil_iff]
    intro a ha
    simp [hno a ha]
  simp only [updateOrderStatus, hmap, hflt]
  rfl

/-- When some order matches the id, the status update matches at least one
row and the handler returns the re-read row. -/
theorem updateOrderStatus_found (db : DB) (oid : Nat) (s : String) (u : OrderRow)
    (hlen : ((db.orders.filter (fun o => o.id == oid)).length == 0) = false)
    (hu : (db.orders.map (fun o => if o.id == oid then { o with order_status := s } else o)).find?
        (fun o => o.id == oid) = some u) :
    updateOrderStatus db oid s = ⟨.ok u,
      { db with orders := (db.orders.map
          (fun o => if o.id == oid then { o with order_status := s } else o)) },
      [.orderStatusUpdated u]⟩ := by
  simp only [updateOrderStatus, hlen, Bool.false_eq_true, if_false, hu]

/-- C5: updating an order status answers `NotFound` exactly when no order has
the given id, leaving everything unchanged; when the order exists, the
update succeeds and returns an order with the requested status — also when
the new status equals the current one, because `mysql2` connects with the
`FOUND_ROWS` client flag and `affectedRows` then counts matched rows. -/
theorem c5_updateOrderStatus (db : DB) (oid : Nat) (s : String) :
    ((∀ o ∈ db.orders, o.id ≠ oid) →
      (updateOrderStatus db oid s).result = .notFound ∧
      (updateOrderStatus db oid s).db = db) ∧
    (∀ o ∈ db.orders, o.id = oid →
      ∃ u, (updateOrderStatus db oid s).result = .ok u ∧ u.id = oid ∧
        u.order_status = s ∧ u ∈ (updateOrderStatus db oid s).db.orders) := by
  constructor
  · intro hno
    rw [updateOrderStatus_notFound db oid s hno]
    exact ⟨rfl, rfl⟩
  · intro o ho hoid
    have hlen : ((db.orders.filter (fun o => o.id == oid)).length == 0) = false := by
      rw [beq_eq_false_iff_ne]
      intro hl
      have := List.filter_eq_nil_iff.1 (List.length_eq_zero.1 hl) o ho
      simp [hoid] at this
    obtain ⟨u, hu, h1, h2, h3⟩ := find?_map_updated db.orders oid s ⟨o, ho, hoid⟩
    rw [updateOrderStatus_found db oid s u hlen hu]
    exact ⟨u, rfl, h1, h2, h3⟩

/-- C5 (witness): re-applying the current status `"pending"` to the existing
order 1 succeeds and returns the order still pending — no `NotFound`. -/
theorem c5_witness :
    ∃ u, (updateOrderStatus statusDB 1 "pending").result = .ok u ∧ u.id = 1 ∧
      u.order_status = "pending" ∧ u ∈ (updateOrderStatus statusDB 1 "pending").db.orders :=
  (c5_updateOrderStatus statusDB 1 "pending").2 pendingOrder
    (by simp [statusDB, sampleDB]) rfl

/-- An order list that contains the id still does after the cancel-status
map, which preserves ids. -/
theorem any_id_map_cancel (l : List OrderRow) (oid : Nat)
    (h : l.any (fun o => o.id == oid) = true) :
    (l.map (fun o => if o.id == oid then { o with order_status := "cancelled" } else o)).any
      (fun o => o.id == oid) = true := by
  obtain ⟨a, ha, hpa⟩ := List.any_eq_true.1 h
  apply List.any_eq_true.2
  refine ⟨if a.id == oid then { a with order_status := "cancelled" } else a,
    List.mem_map_of_mem _ ha, ?_⟩
  by_cases hb : (a.id == oid) = true
  · simp [hb]
  · exact absurd hpa hb

/-- Any existing order of the given id keeps its id across the cancel-status
map. -/
theorem exists_id_map_cancel (l : List OrderRow) (oid : Nat)
    (hmem : ∃ o ∈ l, o.id = oid) :
    ∃ u ∈ l.map (fun o => if o.id == oid then { o with order_status := "cancelled" } else o),
      u.id = oid := by
  rcases hmem with ⟨o, ho, hid⟩
  refine ⟨if o.id == oid then { o with order_status := "cancelled" } else o,
    List.mem_map_of_mem _ ho, ?_⟩
  by_cases hb : (o.id == oid) = true
  · simpa [hb] using hid
  · rw [hid] at hb
    simp at hb

/-- After the cancel-status map, every row carrying the id is cancelled. -/
theorem map_cancel_status (l : List OrderRow) (oid : Nat) :
    ∀ u ∈ l.map (fun o => if o.id == oid then { o with order_status := "cancelled" } else o),
      u.id = oid → u.order_status = "cancelled" := by
  intro u hu hid
  obtain ⟨a, ha, rfl⟩ := List.mem_map.1 hu
  by_cases hb : (a.id == oid) = true
  · simp [hb]
  · rw [if_neg (by simp [hb])] at hid ⊢
    rw [hid] at hb
    simp at hb

/-- When an order with the id exists, the whole-order cancel endpoint applies
the status map, appends the audit row, and reports success. -/
theorem cancelOrder_run (db : DB) (oid : Nat) (r cb : String)
    (hany : db.orders.any (fun o => o.id == oid) = true) :
    cancelOrder db oid r cb = ⟨.ok,
      { db with
        orders := (db.orders.map
          (fun o => if o.id == oid then { o with order_status := "cancelled" } else o))
        cancellations := db.cancellations ++
          [{ id := db.nextCancellationId, order_id := oid, item_id := none,
             reason := r, cancelled_by := cb }]
        nextCancellationId := db.nextCancellationId + 1 }⟩ := by
  simp only [cancelOrder, any_id_map_cancel db.orders oid hany, if_true]

/-- C10: cancelling an order that exists reports success, and cancelling it a
second time reports success again (the second call re-applies the
cancelled status rather than being rejected); afterwards every order row
with that id is cancelled. -/
theorem c10_cancel_idempotent (db : DB) (oid : Nat) (r1 b1 r2 b2 : String)
    (hord : ∃ o ∈ db.orders, o.id = oid) :
    (cancelOrder db oid r1 b1).result = .ok ∧
    (cancelOrder (cancelOrder db oid r1 b1).db oid r2 b2).result = .ok ∧
    (∀ u ∈ (cancelOrder (cancelOrder db oid r1 b1).db oid r2 b2).db.orders,
      u.id = oid → u.order_status = "cancelled") := by
  rcases hord with ⟨o, ho, hid⟩
  have hany : db.orders.any (fun o => o.id == oid) = true :=
    List.any_eq_true.2 ⟨o, ho, by simp [hid]⟩
  have h1 := cancelOrder_run db oid r1 b1 hany
  have hany2 : (cancelOrder db oid r1 b1).db.orders.any (fun o => o.id == oid) = true := by
    rw [h1]
    exact any_id_map_cancel db.orders oid hany
  have h2 := cancelOrder_run (cancelOrder db oid r1 b1).db oid r2 b2 hany2
  refine ⟨by rw [h1], by rw [h2], ?_⟩
  intro u hu huid
  rw [h2] at hu
  exact map_cancel_status _ oid u hu huid

/-- C10 (witness): two consecutive cancellations of the existing order 1 both
report success and leave the order cancelled. -/
theorem c10_witness :
    (cancelOrder statusDB 1 "changed mind" "customer").result = .ok ∧
    (cancelOrder (cancelOrder statusDB 1 "changed mind" "customer").db 1
      "again" "staff").result = .ok ∧
    (∀ u ∈ (cancelOrder (cancelOrder statusDB 1 "changed mind" "customer").db 1
        "again" "staff").db.orders,
      u.id = 1 → u.order_status = "cancelled") :=
  c10_cancel_idempotent statusDB 1 "changed mind" "customer" "again" "staff"
    ⟨pendingOrder, by simp [statusDB, sampleDB], rfl⟩

/-- When an order with the id exists, the item-cancel endpoint applies the
item-status map, appends the audit row referencing both ids, and reports
success — without ever inspecting how many rows the update matched. -/
theorem cancelOrderItem_run (db : DB) (oid iid : Nat) (r cb : String)
    (hany : db.orders.any (fun o => o.id == oid) = true) :
    cancelOrderItem db oid iid r cb = ⟨.ok,
      { db with
        orderItems := (db.orderItems.map
          (fun it =>
            if it.id == iid && it.order_id == oid then
              { it with item_status := "cancelled" }
            else it))
        cancellations := db.cancellations ++
          [{ id := db.nextCancellationId, order_id := oid, item_id := some iid,
             reason := r, cancelled_by := cb }]
        nextCancellationId := db.nextCancellationId + 1 }⟩ := by
  simp only [cancelOrderItem, hany, if_true]

/-- C6 (counterexample): the claim says a mismatched order/item pair is
reported as `NotFound`.  Item 10 belongs to order 1, yet cancelling it
through order 2 answers success while the zero-row write leaves every item
unchanged. -/
theorem c6_counterexample :
    itemTen ∈ mismatchDB.orderItems ∧ itemTen.id = 10 ∧ itemTen.order_id = 1 ∧
    (cancelOrderItem mismatchDB 2 10 "wrong order" "staff").result = .ok ∧
    (cancelOrderItem mismatchDB 2 10 "wrong order" "staff").db.orderItems =
      mismatchDB.orderItems := by
  have hany : mismatchDB.orders.any (fun o => o.id == 2) = true := by
    simp [mismatchDB, sampleDB, pendingOrder, secondOrder]
  have hrun := cancelOrderItem_run mismatchDB 2 10 "wrong order" "staff" hany
  rw [hrun]
  refine ⟨by simp [mismatchDB, sampleDB], rfl, rfl, rfl, ?_⟩
  simp [mismatchDB, sampleDB, itemTen]

/-- C6 (amended): for a mismatched order/item pair (with the order itself
existing, so the audit insert satisfies its foreign key), the status write
affects zero rows — the item table is unchanged — but the endpoint still
reports success and appends a cancellation record for the mismatched pair;
it never reports `NotFound`. -/
theorem c6_mismatch_reports_success (db : DB) (oid iid : Nat) (r cb : String)
    (hmis : ∀ it ∈ db.orderItems, ¬(it.id = iid ∧ it.order_id = oid))
    (hord : ∃ o ∈ db.orders, o.id = oid) :
    (cancelOrderItem db oid iid r cb).result = .ok ∧
    (cancelOrderItem db oid iid r cb).db.orderItems = db.orderItems ∧
    (cancelOrderItem db oid iid r cb).db.cancellations = db.cancellations ++
      [{ id := db.nextCancellationId, order_id := oid, item_id := some iid,
         reason := r, cancelled_by := cb }] := by
  rcases hord with ⟨o, ho, hid⟩
  have hany : db.orders.any (fun o => o.id == oid) = true :=
    List.any_eq_true.2 ⟨o, ho, by simp [hid]⟩
  have hrun := cancelOrderItem_run db oid iid r cb hany
  have hmapid : db.orderItems.map
      (fun it =>
        if it.id == iid && it.order_id == oid then
          { it with item_status := "cancelled" }
        else it) = db.orderItems := by
    conv_rhs => rw [← List.map_id db.orderItems]
    apply List.map_congr_left
    intro a ha
    have hc : (a.id == iid && a.order_id == oid) = false := by
      by_cases h1 : a.id = iid
      · have h2 : a.order_id ≠ oid := fun h2 => hmis a ha ⟨h1, h2⟩
        have hb := beq_eq_false_iff_ne.mpr h2
        simp [hb]
      · have hb := beq_eq_false_iff_ne.mpr h1
        simp [hb]
    simp [hc]
  rw [hrun]
  exact ⟨rfl, hmapid, rfl⟩

/-- C6 (witness): item 10 belongs to order 1; cancelling it through order 2
succeeds without touching the item table and logs the mismatched pair. -/
theorem c6_witness :
    (cancelOrderItem mismatchDB 2 10 "why" "customer").result = .ok ∧
    (cancelOrderItem mismatchDB 2 10 "why" "customer").db.orderItems =
      mismatchDB.orderItems ∧
    (cancelOrderItem mismatchDB 2 10 "why" "customer").db.cancellations =
      mismatchDB.cancellations ++
        [{ id := mismatchDB.nextCancellationId, order_id := 2, item_id := some 10,
           reason := "why", cancelled_by := "customer" }] :=
  c6_mismatch_reports_success mismatchDB 2 10 "why" "customer"
    (by
      intro it hit
      simp only [mismatchDB, sampleDB] at hit
      simp only [List.mem_singleton] at hit
      subst hit
      simp [itemTen])
    ⟨secondOrder, by simp [mismatchDB, sampleDB], rfl⟩

/-- C7: when the order exists, cancelling one of its items reports success,
rewrites exactly the matching item rows to status `"cancelled"`, and leaves
the whole `orders` table — in particular `total_amount_inr` and
`total_amount_usd` — untouched: totals are never recomputed. -/
theorem c7_cancelItem_keeps_totals (db : DB) (oid iid : Nat) (r cb : String)
    (hord : ∃ o ∈ db.orders, o.id = oid) :
    (cancelOrderItem db oid iid r cb).result = .ok ∧
    (cancelOrderItem db oid iid r cb).db.orders = db.orders ∧
    (∀ it ∈ db.orderItems, it.id = iid → it.order_id = oid →
      { it with item_status := "cancelled" } ∈
        (cancelOrderItem db oid iid r cb).db.orderItems) ∧
    (∀ it ∈ db.orderItems, ¬(it.id = iid ∧ it.order_id = oid) →
      it ∈ (cancelOrderItem db oid iid r cb).db.orderItems) := by
  rcases hord with ⟨o, ho, hid⟩
  have hany : db.orders.any (fun o => o.id == oid) = true :=
    List.any_eq_true.2 ⟨o, ho, by simp [hid]⟩
  have hrun := cancelOrderItem_run db oid iid r cb hany
  rw [hrun]
  refine ⟨rfl, rfl, ?_, ?_⟩
  · intro it hit h1 h2
    have hmm := List.mem_map_of_mem
      (fun x =>
        if x.id == iid && x.order_id == oid then
          { x with item_status := "cancelled" }
        else x) hit
    simpa [h1, h2] using hmm
  · intro it hit hnot
    have hc : (it.id == iid && it.order_id == oid) = false := by
      by_cases h1 : it.id = iid
      · have h2 : it.order_id ≠ oid := fun h2 => hnot ⟨h1, h2⟩
        have hb := beq_eq_false_iff_ne.mpr h2
        simp [hb]
      · have hb := beq_eq_false_iff_ne.mpr h1
        simp [hb]
    have hmm := List.mem_map_of_mem
      (fun x =>
        if x.id == iid && x.order_id == oid then
          { x with item_status := "cancelled" }
        else x) hit
    simpa [hc] using hmm

/-- C7 (witness): cancelling item 10 of order 1 succeeds, the cancelled copy
of the item is present, and the order rows (with their totals) are exactly
the original ones. -/
theorem c7_witness :
    (cancelOrderItem itemDB 1 10 "out of stock" "staff").result = .ok ∧
    (cancelOrderItem itemDB 1 10 "out of stock" "staff").db.orders = itemDB.orders ∧
    (∀ it ∈ itemDB.orderItems, it.id = 10 → it.order_id = 1 →
      { it with item_status := "cancelled" } ∈
        (cancelOrderItem itemDB 1 10 "out of stock" "staff").db.orderItems) ∧
    (∀ it ∈ itemDB.orderItems, ¬(it.id = 10 ∧ it.order_id = 1) →
      it ∈ (cancelOrderItem itemDB 1 10 "out of stock" "staff").db.orderItems) :=
  c7_cancelItem_keeps_totals itemDB 1 10 "out of stock" "staff"
    ⟨pendingOrder, by simp [itemDB, sampleDB], rfl⟩

/-- C8: every successfully created order starts with `order_status`
`"pending"`, and `payment_status` is `"pending"` iff the payment method is
`"cash"`, `"paid"` for any other method. -/
theorem c8_initial_statuses (db : DB) (req : CreateOrderReq) (f : FailSpec)
    (o : OrderRow) (its : List OrderItemRow) (hwf : db.wf = true)
    (h : (createOrder db req f).result = .ok o its) :
    o.order_status = "pending" ∧
    (o.payment_status = "pending" ↔ req.payment_method = "cash") ∧
    (req.payment_method ≠ "cash" → o.payment_status = "paid") := by
  rcases createOrder_cases db req f with ⟨hok, _, _⟩ |
    ⟨n, t, o1, hn, ht, hfind, hdb, hrest⟩
  · rw [h] at hok
    simp [CreateOrderResult.isOk] at hok
  · rcases hrest with ⟨_, hres, _⟩ | ⟨_, hres, _⟩
    · rw [hres] at h
      cases h
    · have hpair := hres.symm.trans h
      obtain ⟨e1, _⟩ : o1 = o ∧ selectedItems db req = its := by
        injection hpair with a b
        exact ⟨a, b⟩
      have hfo : o1 = mkOrderRow db.nextOrderId t n req := by
        have hw := wf_find_commit db t n req hwf
        rw [hfind] at hw
        exact Option.some.inj hw
      rw [← e1, hfo]
      refine ⟨rfl, ?_, ?_⟩
      · by_cases hm : req.payment_method = "cash"
        · simp [mkOrderRow, hm]
        · have hb := beq_eq_false_iff_ne.mpr hm
          simp only [mkOrderRow, hb, Bool.false_eq_true, if_false]
          constructor
          · intro hpaid
            exact absurd hpaid (by decide)
          · intro hc
            exact absurd hc hm
      · intro hm
        have hb := beq_eq_false_iff_ne.mpr hm
        simp [mkOrderRow, hb]

/-- C8 (witness): the sample cash order starts pending in both statuses. -/
theorem c8_witness :
    sampleOrderRow.order_status = "pending" ∧
    (sampleOrderRow.payment_status = "pending" ↔ sampleReq.payment_method = "cash") ∧
    (sampleReq.payment_method ≠ "cash" → sampleOrderRow.payment_status = "paid") :=
  c8_initial_statuses sampleDB sampleReq noFail sampleOrderRow sampleItemRows rfl
    (by rw [sample_run])

/-- C9 (counterexample): the claim says every CreateOrder that commits
successfully publishes exactly one `new-order` event.  When only the
post-commit read-back throws, the commit has happened — an order row is in
the state — yet no event is published. -/
theorem c9_counterexample :
    sampleDB.orders = [] ∧
    (createOrder sampleDB sampleReq postReadFail).db.orders.length = 1 ∧
    (createOrder sampleDB sampleReq postReadFail).events = [] := by
  rw [sample_run_postfail]
  exact ⟨rfl, by simp [commitDB, sampleDB], rfl⟩

/-- C9 (amended): a CreateOrder that returns success publishes exactly one
`new-order` event carrying the returned order together with its persisted
item rows; a CreateOrder that returns an error publishes no event — even
in the case where the commit itself succeeded but the post-commit
read-back failed. -/
theorem c9_events (db : DB) (req : CreateOrderReq) (f : FailSpec) (hwf : db.wf = true) :
    (∀ o its, (createOrder db req f).result = .ok o its →
      (createOrder db req f).events = [.newOrder o its] ∧
      (createOrder db req f).db.orderItems = db.orderItems ++ its ∧
      o ∈ (createOrder db req f).db.orders) ∧
    ((createOrder db req f).result.isOk = false → (createOrder db req f).events = []) := by
  rcases createOrder_cases db req f with ⟨hok, hdb, hev⟩ |
    ⟨n, t, o1, hn, ht, hfind, hdb, hrest⟩
  · refine ⟨fun o its h => ?_, fun _ => hev⟩
    rw [h] at hok
    simp [CreateOrderResult.isOk] at hok
  · rcases hrest with ⟨_, hres, hev⟩ | ⟨_, hres, hev⟩
    · refine ⟨fun o its h => ?_, fun _ => hev⟩
      rw [hres] at h
      cases h
    · refine ⟨fun o its h => ?_, fun hok => ?_⟩
      · have hpair := hres.symm.trans h
        obtain ⟨e1, e2⟩ : o1 = o ∧ selectedItems db req = its := by
          injection hpair with a b
          exact ⟨a, b⟩
        refine ⟨by rw [hev, e1, e2], ?_, ?_⟩
        · rw [hdb, ← e2, wf_selectedItems db req hwf]
          rfl
        · rw [hdb, ← e1]
          have hfo : o1 = mkOrderRow db.nextOrderId t n req := by
            have hw := wf_find_commit db t n req hwf
            rw [hfind] at hw
            exact Option.some.inj hw
          rw [hfo]
          simp [commitDB]
      · rw [hres] at hok
        simp [CreateOrderResult.isOk] at hok

/-- C9 (witness): the successful sample request emits exactly the one
`new-order` event with the persisted order and item rows. -/
theorem c9_witness :
    (createOrder sampleDB sampleReq noFail).events =
      [.newOrder sampleOrderRow sampleItemRows] ∧
    (createOrder sampleDB sampleReq noFail).db.orderItems =
      sampleDB.orderItems ++ sampleItemRows ∧
    sampleOrderRow ∈ (createOrder sampleDB sampleReq noFail).db.orders :=
  (c9_events sampleDB sampleReq noFail rfl).1 sampleOrderRow sampleItemRows
    (by rw [sample_run])
